import Mathlib

/-!
Verification of the photosort program (src/main.rs): a shallow embedding of
the binary header scanner (`get_date_from_file`), the date parser
(`Date::try_from` and the `year`/`month`/`day` accessors), the destination
path computation and the effect ordering of `main`.

Bytes are modelled as natural numbers (the Rust code only compares them
against fixed byte values below 256).  Rust `String`s are modelled as
`List Char`, Rust `Result<A, FileParseError>` as `PResult A`, and panics
(`unwrap` on `None`) are surfaced as explicit outcomes.
-/

set_option autoImplicit false

namespace Photosort

/-- Mirror of the Rust enum `FileParseError` (src/main.rs lines 65-75).
`FileError` stands for the `std::io::Error` payload (its contents are not
inspected by the program); `FileSeekError` keeps the expected bytes and the
bytes actually read (the Rust code formats both into the message string);
`DateParseError` keeps the message string; `DateConvertError` stands for the
UTF-8 conversion error. -/
inductive FileParseError where
  | FileError : FileParseError
  | FileSeekError : List Nat → List Nat → FileParseError
  | DateParseError : List Char → FileParseError
  | DateConvertError : FileParseError
deriving DecidableEq

/-- Mirror of Rust `Result<α, FileParseError>`. -/
inductive PResult (α : Type) where
  | ok : α → PResult α
  | err : FileParseError → PResult α
deriving DecidableEq

/-- Model of `BufRead::read_until(delim, read)` on an in-memory cursor:
returns the bytes consumed (up to and including the first occurrence of
`delim`, or the whole input if `delim` does not occur) together with the
rest of the input.  The Rust call's return value `r` is the length of the
first component. -/
def readUntil (delim : Nat) : List Nat → List Nat × List Nat
  | [] => ([], [])
  | b :: bs =>
    if b = delim then ([b], bs)
    else
      let p := readUntil delim bs
      (b :: p.1, p.2)

/-- The 8 bytes checked after skipping to the first `0x48`
(src/main.rs line 160). -/
def pattern8 : List Nat := [0x00, 0x00, 0x00, 0x01, 0x00, 0x00, 0x00, 0x48]

/-- Steps 6-8 of the scan in `get_date_from_file` (src/main.rs lines
156-173): read until the next `0x48` requiring exactly the 8 bytes
`pattern8`, advance the cursor 7 bytes, then `read_exact` 10 date bytes.
A short read at the final `read_exact` is an io error (`FileError`), not a
seek error. -/
def scanTail (tail : List Nat) : PResult (List Nat) :=
  let r6 := readUntil 0x48 tail
  if r6.1.length ≠ 8 ∨ r6.1 ≠ pattern8 then
    .err (.FileSeekError pattern8 r6.1)
  else
    let s7 := r6.2.drop 7
    if s7.length < 10 then .err .FileError
    else .ok (s7.take 10)

/-- The in-memory scan of `get_date_from_file` (src/main.rs lines 131-173):
skip to the first `0x49`, require one more byte `0x49`, require one byte
`0x2a`, skip to the next `0x25`, skip to the next `0x48`, then `scanTail`.
The single-byte marker checks test only the consumed byte count `r != 1`,
exactly as the Rust code does. -/
def scanDate (header : List Nat) : PResult (List Nat) :=
  let s1 := (readUntil 0x49 header).2
  let r2 := readUntil 0x49 s1
  if r2.1.length ≠ 1 then .err (.FileSeekError [0x49] r2.1)
  else
    let r3 := readUntil 0x2a r2.2
    if r3.1.length ≠ 1 then .err (.FileSeekError [0x2a] r3.1)
    else
      let s4 := (readUntil 0x25 r3.2).2
      let s5 := (readUntil 0x48 s4).2
      scanTail s5

theorem readUntil_nil (d : Nat) : readUntil d [] = ([], []) := rfl

theorem readUntil_cons_self (d : Nat) (l : List Nat) :
    readUntil d (d :: l) = ([d], l) := by
  simp [readUntil]

theorem readUntil_cons_ne (d x : Nat) (l : List Nat) (hx : x ≠ d) :
    readUntil d (x :: l) = (x :: (readUntil d l).1, (readUntil d l).2) := by
  simp [readUntil, hx]

/-- If none of the bytes of `P` equals the delimiter, `read_until` consumes
`P`, the delimiter, and nothing more. -/
theorem readUntil_append (d : Nat) (P rest : List Nat) (hP : ∀ b ∈ P, b ≠ d) :
    readUntil d (P ++ d :: rest) = (P ++ [d], rest) := by
  induction P with
  | nil => simp [readUntil]
  | cons x xs ih =>
    have hx : x ≠ d := hP x (by simp)
    have ih' := ih (fun b hb => hP b (by simp [hb]))
    simp [readUntil, hx, ih']

/-- The bytes consumed by `read_until` followed by the rest of the input
reassemble the input. -/
theorem readUntil_eq_append (d : Nat) (l : List Nat) :
    (readUntil d l).1 ++ (readUntil d l).2 = l := by
  induction l with
  | nil => simp [readUntil]
  | cons x xs ih =>
    by_cases hx : x = d
    · subst hx; simp [readUntil]
    · simp [readUntil, hx, ih]

/-- On a nonempty input `read_until` consumes at least one byte. -/
theorem readUntil_fst_length_pos (d : Nat) (l : List Nat) (h : l ≠ []) :
    1 ≤ (readUntil d l).1.length := by
  cases l with
  | nil => exact absurd rfl h
  | cons x xs =>
    by_cases hx : x = d
    · subst hx; simp [readUntil]
    · simp [readUntil, hx]

/-- Walking the scanner through a header of the shape it expects: a prefix
free of `0x49`, the markers `0x49 0x49 0x2a`, bytes free of `0x25`, a
`0x25`, bytes free of `0x48`, a `0x48`, and then an arbitrary tail, reduces
the scan to `scanTail` on that tail. -/
theorem scanDate_shape (P A B tail : List Nat)
    (hP : ∀ b ∈ P, b ≠ 0x49) (hA : ∀ b ∈ A, b ≠ 0x25) (hB : ∀ b ∈ B, b ≠ 0x48) :
    scanDate (P ++ 0x49 :: 0x49 :: 0x2a :: (A ++ 0x25 :: (B ++ 0x48 :: tail)))
      = scanTail tail := by
  have h1 := readUntil_append 0x49 P
      (0x49 :: 0x2a :: (A ++ 0x25 :: (B ++ 0x48 :: tail))) hP
  have h2 := readUntil_cons_self 0x49 (0x2a :: (A ++ 0x25 :: (B ++ 0x48 :: tail)))
  have h3 := readUntil_cons_self 0x2a (A ++ 0x25 :: (B ++ 0x48 :: tail))
  have h4 := readUntil_append 0x25 A (B ++ 0x48 :: tail) hA
  have h5 := readUntil_append 0x48 B tail hB
  simp only [scanDate, h1, h2, h3, h4, h5]
  norm_num

/-- On a tail consisting of the 8 expected pattern bytes, 7 gap bytes, the
10 date bytes and arbitrary padding, `scanTail` succeeds and returns
exactly the date bytes. -/
theorem scanTail_ok (G D R : List Nat) (hG : G.length = 7) (hD : D.length = 10) :
    scanTail (pattern8 ++ (G ++ (D ++ R))) = .ok D := by
  have hpat : ∀ b ∈ [0x00, 0x00, 0x00, 0x01, 0x00, 0x00, 0x00], b ≠ 0x48 := by decide
  have h6 : readUntil 0x48 (pattern8 ++ (G ++ (D ++ R)))
      = (pattern8, G ++ (D ++ R)) := by
    have := readUntil_append 0x48 [0x00, 0x00, 0x00, 0x01, 0x00, 0x00, 0x00]
        (G ++ (D ++ R)) hpat
    simpa [pattern8] using this
  have hdrop : (G ++ (D ++ R)).drop 7 = D ++ R := by
    rw [← hG, List.drop_left]
  have htake : (D ++ R).take 10 = D := by
    rw [← hD, List.take_left]
  have hlen : ¬ (D ++ R).length < 10 := by
    simp [List.length_append, hD]
  simp only [scanTail, h6, hdrop, htake]
  simp [pattern8, hlen, htake, hD]

/-- Unicode white-space test used by Rust's `str::split_whitespace`
(`char::is_whitespace`, the Unicode White_Space property). -/
def rustIsWhitespace (c : Char) : Bool :=
  let n := c.toNat
  n = 0x09 || n = 0x0a || n = 0x0b || n = 0x0c || n = 0x0d || n = 0x20 ||
  n = 0x85 || n = 0xa0 || n = 0x1680 ||
  (0x2000 ≤ n && n ≤ 0x200a) || n = 0x2028 || n = 0x2029 || n = 0x202f ||
  n = 0x205f || n = 0x3000

/-- Model of Rust `str::split(':')` on a list of characters: the (always
nonempty) list of separator-delimited pieces, empty pieces included. -/
def splitOnChar (sep : Char) : List Char → List (List Char)
  | [] => [[]]
  | c :: cs =>
    if c = sep then [] :: splitOnChar sep cs
    else
      match splitOnChar sep cs with
      | [] => [[c]]
      | t :: ts => (c :: t) :: ts

/-- Model of `src.split_whitespace().next().unwrap_or("")` (src/main.rs
lines 97-98): the first maximal run of non-whitespace characters, or the
empty string when there is none. -/
def firstWhitespaceToken (s : List Char) : List Char :=
  (s.dropWhile (fun c => rustIsWhitespace c)).takeWhile (fun c => !rustIsWhitespace c)

/-- Mirror of the Rust struct `Date` (src/main.rs lines 89-91); `_src`
holds the first whitespace-delimited token of the input string. -/
structure Date where
  _src : List Char
deriving DecidableEq

/-- The fixed message stored in `DateParseError` (src/main.rs line 101). -/
def dateParseMsg : List Char := String.toList "Read something that is not a date"

/-- Mirror of `impl TryFrom<String> for Date` (src/main.rs lines 93-106):
take the first whitespace-delimited token, split it on `:`, require exactly
3 components, and store the token.  Only the component count is checked. -/
def dateTryFrom (src : List Char) : PResult Date :=
  let date := firstWhitespaceToken src
  if (splitOnChar ':' date).length ≠ 3 then
    .err (.DateParseError dateParseMsg)
  else .ok ⟨date⟩

/-- Mirror of `Date::year` (src/main.rs line 110).  The Rust accessor is
`self._src.split(":").nth(0).unwrap()`; the `unwrap` is modelled by the
`Option`: `none` means the Rust code would panic. -/
def Date.year (d : Date) : Option (List Char) := (splitOnChar ':' d._src).get? 0

/-- Mirror of `Date::month` (src/main.rs line 114). -/
def Date.month (d : Date) : Option (List Char) := (splitOnChar ':' d._src).get? 1

/-- Mirror of `Date::day` (src/main.rs line 118). -/
def Date.day (d : Date) : Option (List Char) := (splitOnChar ':' d._src).get? 2

/-- Whether a byte is a UTF-8 continuation byte. -/
def isCont (b : Nat) : Bool := 0x80 ≤ b && b ≤ 0xbf

/-- Model of `String::from_utf8` (src/main.rs line 175): strict UTF-8
validation and decoding; `none` is the `FromUtf8Error` case. -/
def utf8Decode : List Nat → Option (List Char)
  | [] => some []
  | b :: bs =>
    if b ≤ 0x7f then
      (utf8Decode bs).map (fun cs => Char.ofNat b :: cs)
    else if b < 0xc2 then none
    else if b ≤ 0xdf then
      match bs with
      | [] => none
      | b2 :: bs2 =>
        if isCont b2 then
          (utf8Decode bs2).map
            (fun cs => Char.ofNat ((b - 0xc0) * 0x40 + (b2 - 0x80)) :: cs)
        else none
    else if b ≤ 0xef then
      match bs with
      | b2 :: b3 :: bs3 =>
        if (if b = 0xe0 then 0xa0 else 0x80) ≤ b2 &&
            b2 ≤ (if b = 0xed then 0x9f else 0xbf) && isCont b3 then
          (utf8Decode bs3).map
            (fun cs =>
              Char.ofNat ((b - 0xe0) * 0x1000 + (b2 - 0x80) * 0x40 + (b3 - 0x80)) :: cs)
        else none
      | _ => none
    else if b ≤ 0xf4 then
      match bs with
      | b2 :: b3 :: b4 :: bs4 =>
        if (if b = 0xf0 then 0x90 else 0x80) ≤ b2 &&
            b2 ≤ (if b = 0xf4 then 0x8f else 0xbf) && isCont b3 && isCont b4 then
          (utf8Decode bs4).map
            (fun cs =>
              Char.ofNat ((b - 0xf0) * 0x40000 + (b2 - 0x80) * 0x1000 +
                (b3 - 0x80) * 0x40 + (b4 - 0x80)) :: cs)
        else none
      | _ => none
    else none

/-- Mirror of `get_date_from_file` (src/main.rs lines 122-179).  The file
is modelled by its byte contents (`none` when opening fails).  `read_exact`
into the 1024-byte buffer fails with an io error (`FileError`) when the
file is shorter than 1024 bytes; otherwise the first 1024 bytes are
scanned, the 10 extracted bytes are UTF-8 decoded, and the result is passed
to `Date::try_from`. -/
def get_date_from_file (contents : Option (List Nat)) : PResult Date :=
  match contents with
  | none => .err .FileError
  | some bytes =>
    if bytes.length < 1024 then .err .FileError
    else
      match scanDate (bytes.take 1024) with
      | .err e => .err e
      | .ok data =>
        match utf8Decode data with
        | none => .err .DateConvertError
        | some s => dateTryFrom s

/-- Model of `Path::join` / `PathBuf::push` on unix path strings
(src/main.rs lines 193 and 195): an absolute right operand replaces the
left operand; otherwise a `/` separator is inserted unless the left operand
is empty or already ends in `/`. -/
def pathJoin (a b : List Char) : List Char :=
  if b.head? = some '/' then b
  else if a = [] then b
  else if a.getLast? = some '/' then a ++ b
  else a ++ '/' :: b

/-- Model of `Path::file_name` (src/main.rs line 194) on unix path
strings: the last path component, with empty and `.` components ignored;
`none` when there is no component or the last one is `..`. -/
def fileName (p : List Char) : Option (List Char) :=
  let comps := (splitOnChar '/' p).filter (fun c => c ≠ [] ∧ c ≠ ['.'])
  match comps.getLast? with
  | none => none
  | some c => if c = ['.', '.'] then none else some c

/-- Drop trailing `/` characters of a path string. -/
def stripTrailingSlashes (p : List Char) : List Char :=
  (p.reverse.dropWhile (fun c => c = '/')).reverse

/-- Model of `Path::parent` (src/main.rs line 196) on unix path strings:
the path without its final component, `none` for the empty path and the
root.  (The claims below depend only on whether this is `none`, not on the
exact string.) -/
def parentPath (p : List Char) : Option (List Char) :=
  let q := stripTrailingSlashes p
  if q = [] then none
  else
    let withoutLast := stripTrailingSlashes ((q.reverse.dropWhile (fun c => c ≠ '/')).reverse)
    if withoutLast = [] then
      if q.head? = some '/' then some ['/'] else some []
    else some withoutLast

/-- The literal `"annex/photos"` joined onto the home directory
(src/main.rs line 193). -/
def annexPhotos : List Char := String.toList "annex/photos"

/-- The destination path computed by `main` (src/main.rs lines 193-195):
`home.join("annex/photos").join(format!("{}/{}/{}/{}", year, month, day,
file_name))`. -/
def destPath (home y m d fname : List Char) : List Char :=
  pathJoin (pathJoin home annexPhotos) (y ++ '/' :: (m ++ '/' :: (d ++ '/' :: fname)))

/-- The observable effects of a run of `main`: directory creation
(src/main.rs line 199) and the rename (line 200). -/
inductive Effect where
  | createDirAll : List Char → Effect
  | renameFile : List Char → List Char → Effect
deriving DecidableEq

/-- How a run of `main` terminates: normally, with an error return, or
with a panic (an `unwrap` on `None`). -/
inductive MainResult where
  | ok : MainResult
  | errored : MainResult
  | panicked : MainResult
deriving DecidableEq

/-- The inputs of a run of `main`: the argument vector (index 0 is the
program name), the `HOME` environment variable, the contents of the input
file (`none` when it cannot be opened or `read_exact` needs more bytes than
exist — see `get_date_from_file`), and whether `create_dir_all` and the
rename succeed. -/
structure Env where
  argv : List (List Char)
  home : Option (List Char)
  file : Option (List Nat)
  mkdirOk : Bool
  renameOk : Bool

/-- Model of `main` (src/main.rs lines 181-202), returning the list of
effects performed (in order) and the outcome.  The order follows the
source: unwrap of argv index 1 (line 183, panic when absent),
`get_date_from_file` (line 189), `HOME` lookup (line 191), the unwraps of
the date accessors and of `file_name` (line 194), `parent` (line 196),
`create_dir_all` (line 199) and only then the rename (line 200). -/
def runMain (e : Env) : List Effect × MainResult :=
  match e.argv[1]? with
  | none => ([], .panicked)
  | some in_file =>
    match get_date_from_file e.file with
    | .err _ => ([], .errored)
    | .ok date =>
      match e.home with
      | none => ([], .errored)
      | some home_var =>
        match date.year, date.month, date.day, fileName in_file with
        | some y, some m, some d, some fname =>
          let dest := destPath home_var y m d fname
          match parentPath dest with
          | none => ([], .panicked)
          | some dest_dir =>
            if e.mkdirOk then
              ([Effect.createDirAll dest_dir, Effect.renameFile in_file dest],
               if e.renameOk then .ok else .errored)
            else ([Effect.createDirAll dest_dir], .errored)
        | _, _, _, _ => ([], .panicked)

set_option maxRecDepth 100000

/-- A single-byte marker check fails (`r != 1`) whenever the byte under the
cursor is not the delimiter and more input follows. -/
theorem readUntil_cons_ne_length (d x : Nat) (l : List Nat) (hx : x ≠ d)
    (hl : l ≠ []) : (readUntil d (x :: l)).1.length ≠ 1 := by
  rw [readUntil_cons_ne d x l hx]
  have h1 := readUntil_fst_length_pos d l hl
  simp only [List.length_cons]
  omega

/-- What `Date::try_from` records on success: the stored string is the
first whitespace-delimited token of the input and it splits on `:` into
exactly 3 components. -/
theorem dateTryFrom_ok_inv (src : List Char) (d : Date)
    (h : dateTryFrom src = .ok d) :
    d._src = firstWhitespaceToken src ∧ (splitOnChar ':' d._src).length = 3 := by
  simp only [dateTryFrom] at h
  split at h
  · exact PResult.noConfusion h
  · next hc =>
    cases h
    refine ⟨rfl, ?_⟩
    show (splitOnChar ':' (firstWhitespaceToken src)).length = 3
    omega

/-- C1: for every 1024-byte header made of a prefix with no `0x49` byte,
the markers `0x49 0x49 0x2a`, arbitrary bytes up to the first `0x25`,
arbitrary bytes up to a `0x48`, the exact 8 bytes of `pattern8`, any 7
bytes, and 10 date bytes (then padding), the scan of `get_date_from_file`
succeeds and extracts exactly those 10 date bytes. -/
theorem c1_scan_extracts_date (P A B G D R : List Nat)
    (hP : ∀ b ∈ P, b ≠ 0x49) (hA : ∀ b ∈ A, b ≠ 0x25) (hB : ∀ b ∈ B, b ≠ 0x48)
    (hG : G.length = 7) (hD : D.length = 10)
    (_hlen : (P ++ 0x49 :: 0x49 :: 0x2a :: (A ++ 0x25 :: (B ++ 0x48 ::
      (pattern8 ++ (G ++ (D ++ R)))))).length = 1024) :
    scanDate (P ++ 0x49 :: 0x49 :: 0x2a :: (A ++ 0x25 :: (B ++ 0x48 ::
      (pattern8 ++ (G ++ (D ++ R)))))) = .ok D := by
  rw [scanDate_shape P A B _ hP hA hB, scanTail_ok G D R hG hD]

/-- Witness for C1 at a concrete 1024-byte header whose date field is the
bytes of `"2020:02:01"`. -/
theorem c1_scan_extracts_date_witness :
    scanDate ([] ++ 0x49 :: 0x49 :: 0x2a :: ([] ++ 0x25 :: ([] ++ 0x48 ::
      (pattern8 ++ (List.replicate 7 0 ++
        ([0x32, 0x30, 0x32, 0x30, 0x3a, 0x30, 0x32, 0x3a, 0x30, 0x31] ++
          List.replicate 994 0))))))
      = .ok [0x32, 0x30, 0x32, 0x30, 0x3a, 0x30, 0x32, 0x3a, 0x30, 0x31] :=
  c1_scan_extracts_date [] [] [] (List.replicate 7 0)
    [0x32, 0x30, 0x32, 0x30, 0x3a, 0x30, 0x32, 0x3a, 0x30, 0x31]
    (List.replicate 994 0)
    (by decide) (by decide) (by decide) (by decide) (by decide) (by decide)

/-- C2 as stated is false: on a 1024-byte header that is well formed up to
and including the 8-byte pattern but whose buffer ends before 10 bytes of
date data remain, `get_date_from_file` fails with `FileError` (the io error
of the final `read_exact`, src/main.rs line 173), not with a
`FileSeekError`. -/
theorem c2_counterexample :
    (List.replicate 1004 0 ++ [0x49, 0x49, 0x2a, 0x25, 0x48] ++ pattern8 ++
      List.replicate 7 0).length = 1024 ∧
    get_date_from_file (some (List.replicate 1004 0 ++ [0x49, 0x49, 0x2a, 0x25, 0x48] ++
      pattern8 ++ List.replicate 7 0)) = .err .FileError :=
  ⟨by decide, by decide⟩

/-- C2 amended: altering the first `0x49`, the second `0x49`, the `0x2a`,
or the 8 repeated-pattern bytes of a well-formed header makes the scan fail
with a `FileSeekError` whose payload names the first mismatching marker
(expected bytes) together with the bytes actually read, while a buffer
ending before 10 bytes of date data remain makes it fail with the io error
`FileError`; in all cases no `Date` is returned, and for a 1024-byte file
`get_date_from_file` returns exactly the scan's error. -/
theorem c2_amended_malformed :
    (∀ P x A tail, (∀ b ∈ P, b ≠ 0x49) → x ≠ 0x49 →
      ∃ found, scanDate (P ++ x :: 0x49 :: 0x2a :: (A ++ 0x25 :: tail))
        = .err (.FileSeekError [0x49] found)) ∧
    (∀ P x A tail, (∀ b ∈ P, b ≠ 0x49) → x ≠ 0x49 →
      ∃ found, scanDate (P ++ 0x49 :: x :: 0x2a :: (A ++ 0x25 :: tail))
        = .err (.FileSeekError [0x49] found)) ∧
    (∀ P x A tail, (∀ b ∈ P, b ≠ 0x49) → x ≠ 0x2a →
      ∃ found, scanDate (P ++ 0x49 :: 0x49 :: x :: (A ++ 0x25 :: tail))
        = .err (.FileSeekError [0x2a] found)) ∧
    (∀ P A B Q tail, (∀ b ∈ P, b ≠ 0x49) → (∀ b ∈ A, b ≠ 0x25) →
      (∀ b ∈ B, b ≠ 0x48) → Q.length = 8 → Q ≠ pattern8 →
      ∃ found, scanDate (P ++ 0x49 :: 0x49 :: 0x2a :: (A ++ 0x25 :: (B ++ 0x48 ::
        (Q ++ tail)))) = .err (.FileSeekError pattern8 found)) ∧
    (∀ P A B T, (∀ b ∈ P, b ≠ 0x49) → (∀ b ∈ A, b ≠ 0x25) →
      (∀ b ∈ B, b ≠ 0x48) → T.length < 17 →
      scanDate (P ++ 0x49 :: 0x49 :: 0x2a :: (A ++ 0x25 :: (B ++ 0x48 ::
        (pattern8 ++ T)))) = .err .FileError) ∧
    (∀ bytes e, bytes.length = 1024 → scanDate bytes = .err e →
      get_date_from_file (some bytes) = .err e) := by
  refine ⟨?_, ?_, ?_, ?_, ?_, ?_⟩
  · -- first `0x49` marker altered to `x`
    intro P x A tail hP hx
    have hshape : P ++ x :: 0x49 :: 0x2a :: (A ++ 0x25 :: tail)
        = (P ++ [x]) ++ 0x49 :: (0x2a :: (A ++ 0x25 :: tail)) := by simp
    have h1 := readUntil_append 0x49 (P ++ [x]) (0x2a :: (A ++ 0x25 :: tail))
      (by intro b hb
          rcases List.mem_append.1 hb with h | h
          · exact hP b h
          · rw [List.mem_singleton] at h
            subst h
            exact hx)
    have h2len := readUntil_cons_ne_length 0x49 0x2a (A ++ 0x25 :: tail)
      (by norm_num) (by simp)
    refine ⟨(readUntil 0x49 (0x2a :: (A ++ 0x25 :: tail))).1, ?_⟩
    rw [hshape]
    simp only [scanDate, h1]
    simp only [if_pos h2len]
  · -- second `0x49` marker altered to `x`
    intro P x A tail hP hx
    have h1 := readUntil_append 0x49 P (x :: 0x2a :: (A ++ 0x25 :: tail)) hP
    have h2len := readUntil_cons_ne_length 0x49 x (0x2a :: (A ++ 0x25 :: tail))
      hx (by simp)
    refine ⟨(readUntil 0x49 (x :: 0x2a :: (A ++ 0x25 :: tail))).1, ?_⟩
    simp only [scanDate, h1]
    simp only [if_pos h2len]
  · -- `0x2a` marker altered to `x`
    intro P x A tail hP hx
    have h1 := readUntil_append 0x49 P (0x49 :: x :: (A ++ 0x25 :: tail)) hP
    have h2 := readUntil_cons_self 0x49 (x :: (A ++ 0x25 :: tail))
    have h3len := readUntil_cons_ne_length 0x2a x (A ++ 0x25 :: tail) hx (by simp)
    refine ⟨(readUntil 0x2a (x :: (A ++ 0x25 :: tail))).1, ?_⟩
    simp only [scanDate, h1, h2]
    rw [if_neg (by norm_num), if_pos h3len]
  · -- the 8 repeated-pattern bytes altered to `Q`
    intro P A B Q tail hP hA hB hQ8 hQ
    rw [scanDate_shape P A B _ hP hA hB]
    refine ⟨(readUntil 0x48 (Q ++ tail)).1, ?_⟩
    have hne : (readUntil 0x48 (Q ++ tail)).1 ≠ pattern8 := by
      intro he
      have happ := readUntil_eq_append 0x48 (Q ++ tail)
      rw [he] at happ
      have hlen : pattern8.length = Q.length := by rw [hQ8]; rfl
      exact hQ ((List.append_inj happ hlen).1.symm)
    simp only [scanTail]
    rw [if_pos (Or.inr hne)]
  · -- buffer ends before 10 bytes of date data remain
    intro P A B T hP hA hB hT
    rw [scanDate_shape P A B _ hP hA hB]
    have h6 : readUntil 0x48 (pattern8 ++ T) = (pattern8, T) := by
      simpa [pattern8] using
        readUntil_append 0x48 [0x00, 0x00, 0x00, 0x01, 0x00, 0x00, 0x00] T (by decide)
    have hdrop : (T.drop 7).length < 10 := by
      simp only [List.length_drop]
      omega
    simp only [scanTail, h6]
    rw [if_neg (by decide), if_pos hdrop]
  · -- a 1024-byte file propagates the scan error unchanged
    intro bytes e hlen hscan
    have htake : bytes.take 1024 = bytes := by
      rw [← hlen]
      simp
    simp only [get_date_from_file]
    rw [if_neg (by omega), htake, hscan]

/-- Witness for C2 (amended), exercising each conjunct at a concrete
input. -/
theorem c2_amended_malformed_witness :
    (∃ found, scanDate ([] ++ 0x30 :: 0x49 :: 0x2a :: ([] ++ 0x25 :: [0x48]))
      = .err (.FileSeekError [0x49] found)) ∧
    (∃ found, scanDate ([] ++ 0x49 :: 0x30 :: 0x2a :: ([] ++ 0x25 :: [0x48]))
      = .err (.FileSeekError [0x49] found)) ∧
    (∃ found, scanDate ([] ++ 0x49 :: 0x49 :: 0x30 :: ([] ++ 0x25 :: [0x48]))
      = .err (.FileSeekError [0x2a] found)) ∧
    (∃ found, scanDate ([] ++ 0x49 :: 0x49 :: 0x2a :: ([] ++ 0x25 :: ([] ++ 0x48 ::
      (List.replicate 8 0 ++ [])))) = .err (.FileSeekError pattern8 found)) ∧
    scanDate ([] ++ 0x49 :: 0x49 :: 0x2a :: ([] ++ 0x25 :: ([] ++ 0x48 ::
      (pattern8 ++ [])))) = .err .FileError ∧
    get_date_from_file (some (List.replicate 1019 0 ++ [0x49, 0x49, 0x2a, 0x25, 0x48]))
      = .err (.FileSeekError pattern8 []) := by
  obtain ⟨h1, h2, h3, h4, h5, h6⟩ := c2_amended_malformed
  refine ⟨h1 [] 0x30 [] [0x48] (by decide) (by decide),
          h2 [] 0x30 [] [0x48] (by decide) (by decide),
          h3 [] 0x30 [] [0x48] (by decide) (by decide),
          h4 [] [] [] (List.replicate 8 0) [] (by decide) (by decide) (by decide)
            (by decide) (by decide),
          h5 [] [] [] [] (by decide) (by decide) (by decide) (by decide),
          h6 (List.replicate 1019 0 ++ [0x49, 0x49, 0x2a, 0x25, 0x48])
            (.FileSeekError pattern8 []) (by decide) (by decide)⟩

/-- C3: for every input string whose first whitespace-delimited token
splits on `:` into exactly three components `y`, `m`, `d`,
`Date::try_from` succeeds storing that token, and the `year`, `month`,
`day` accessors return `y`, `m`, `d`; everything after the whitespace (the
trailing time text) is ignored. -/
theorem c3_valid_date_parses (src y m d : List Char)
    (h : splitOnChar ':' (firstWhitespaceToken src) = [y, m, d]) :
    dateTryFrom src = .ok ⟨firstWhitespaceToken src⟩ ∧
    (Date.mk (firstWhitespaceToken src)).year = some y ∧
    (Date.mk (firstWhitespaceToken src)).month = some m ∧
    (Date.mk (firstWhitespaceToken src)).day = some d := by
  have hl : ¬ (splitOnChar ':' (firstWhitespaceToken src)).length ≠ 3 := by
    rw [h]
    norm_num
  refine ⟨?_, ?_, ?_, ?_⟩
  · simp only [dateTryFrom]
    rw [if_neg hl]
  · simp [Date.year, h]
  · simp [Date.month, h]
  · simp [Date.day, h]

/-- Witness for C3 at the input `"2020:02:01 14:32:14"`. -/
theorem c3_valid_date_parses_witness :
    dateTryFrom (String.toList "2020:02:01 14:32:14")
      = .ok ⟨firstWhitespaceToken (String.toList "2020:02:01 14:32:14")⟩ ∧
    (Date.mk (firstWhitespaceToken (String.toList "2020:02:01 14:32:14"))).year
      = some (String.toList "2020") ∧
    (Date.mk (firstWhitespaceToken (String.toList "2020:02:01 14:32:14"))).month
      = some (String.toList "02") ∧
    (Date.mk (firstWhitespaceToken (String.toList "2020:02:01 14:32:14"))).day
      = some (String.toList "01") :=
  c3_valid_date_parses (String.toList "2020:02:01 14:32:14")
    (String.toList "2020") (String.toList "02") (String.toList "01") (by decide)

/-- C4 as stated is false: `Date::try_from` checks only the component
count, not non-emptiness, so the input `"::"` is accepted and the
constructed `Date` has an empty month (and year and day) component. -/
theorem c4_counterexample :
    dateTryFrom (String.toList "::") = .ok ⟨String.toList "::"⟩ ∧
    (Date.mk (String.toList "::")).month = some [] :=
  ⟨by decide, by decide⟩

/-- C4 amended: every `Date` constructed by `Date::try_from` satisfies the
invariant that its stored string has exactly three colon-delimited
components (the components are not necessarily non-empty). -/
theorem c4_amended_three_components (src : List Char) (d : Date)
    (h : dateTryFrom src = .ok d) :
    (splitOnChar ':' d._src).length = 3 :=
  (dateTryFrom_ok_inv src d h).2

/-- Witness for C4 (amended) at the input `"2020:02:01 14:32:14"`. -/
theorem c4_amended_three_components_witness :
    (splitOnChar ':' (Date.mk (String.toList "2020:02:01"))._src).length = 3 :=
  c4_amended_three_components (String.toList "2020:02:01 14:32:14")
    (Date.mk (String.toList "2020:02:01")) (by decide)

/-- C7 as stated is false: on inputs whose first token does not have
exactly 3 colon-delimited components, `Date::try_from` fails with a
`DateParseError` carrying the fixed message
`"Read something that is not a date"` (src/main.rs line 101), not the
malformed input. -/
theorem c7_counterexample :
    dateTryFrom (String.toList "garbage")
      = .err (.DateParseError dateParseMsg) ∧
    dateParseMsg ≠ String.toList "garbage" :=
  ⟨by decide, by decide⟩

/-- C7 amended: for every input string whose first whitespace-delimited
token does not split on `:` into exactly 3 components, `Date::try_from`
fails with a `DateParseError` carrying the fixed diagnostic message (the
malformed input itself does not appear in the error). -/
theorem c7_amended_parse_error (src : List Char)
    (h : (splitOnChar ':' (firstWhitespaceToken src)).length ≠ 3) :
    dateTryFrom src = .err (.DateParseError dateParseMsg) := by
  simp only [dateTryFrom]
  rw [if_pos h]

/-- Witness for C7 (amended) at the input `"not a date"`. -/
theorem c7_amended_parse_error_witness :
    dateTryFrom (String.toList "not a date")
      = .err (.DateParseError dateParseMsg) :=
  c7_amended_parse_error (String.toList "not a date") (by decide)

/-- C9: the accessors of every successfully constructed `Date` are total:
the `unwrap`s on the 0th, 1st and 2nd colon-split components cannot panic
(none of the three accessor options is `none`), because the constructor
guarantees exactly three components. -/
theorem c9_accessors_total (src : List Char) (d : Date)
    (h : dateTryFrom src = .ok d) :
    (Date.year d).isSome ∧ (Date.month d).isSome ∧ (Date.day d).isSome := by
  have h3 := (dateTryFrom_ok_inv src d h).2
  obtain ⟨a, b, c, habc⟩ := List.length_eq_three.mp h3
  simp [Date.year, Date.month, Date.day, habc]

/-- Witness for C9 at the input `"2020:02:01 14:32:14"`. -/
theorem c9_accessors_total_witness :
    (Date.year (Date.mk (String.toList "2020:02:01"))).isSome ∧
    (Date.month (Date.mk (String.toList "2020:02:01"))).isSome ∧
    (Date.day (Date.mk (String.toList "2020:02:01"))).isSome :=
  c9_accessors_total (String.toList "2020:02:01 14:32:14")
    (Date.mk (String.toList "2020:02:01")) (by decide)

/-- If reading the date out of the input file fails with any error, `main`
performs no effect at all. -/
theorem runMain_err_no_effects (e : Env) (er : FileParseError)
    (h : get_date_from_file e.file = .err er) : (runMain e).1 = [] := by
  rcases h1 : e.argv[1]? with _ | f
  · simp [runMain, h1]
  · simp [runMain, h1, h]

/-- If `HOME` is absent, `main` performs no effect and does not succeed. -/
theorem runMain_no_home (e : Env) (h : e.home = none) :
    (runMain e).1 = [] ∧ (runMain e).2 ≠ MainResult.ok := by
  rcases h1 : e.argv[1]? with _ | f
  · have hrm : runMain e = ([], MainResult.panicked) := by simp [runMain, h1]
    rw [hrm]
    exact ⟨rfl, by decide⟩
  · rcases h2 : get_date_from_file e.file with dt | er
    · have hrm : runMain e = ([], MainResult.errored) := by
        simp [runMain, h1, h2, h]
      rw [hrm]
      exact ⟨rfl, by decide⟩
    · have hrm : runMain e = ([], MainResult.errored) := by
        simp [runMain, h1, h2]
      rw [hrm]
      exact ⟨rfl, by decide⟩

/-- Case analysis of `main`: the rename effect occurs only as the second
and final element of the effect list, preceded by the directory creation,
and only when the date was read successfully, `HOME` was present, and
`create_dir_all` succeeded. -/
theorem runMain_rename_mem (e : Env) (s t : List Char)
    (hmem : Effect.renameFile s t ∈ (runMain e).1) :
    (∃ dd, (runMain e).1 = [Effect.createDirAll dd, Effect.renameFile s t]) ∧
    e.mkdirOk = true ∧
    (∃ d, get_date_from_file e.file = .ok d) ∧
    (∃ h, e.home = some h) := by
  rcases h1 : e.argv[1]? with _ | f
  · have hrm : (runMain e).1 = [] := by simp [runMain, h1]
    rw [hrm] at hmem
    exact absurd hmem (List.not_mem_nil _)
  · rcases h2 : get_date_from_file e.file with dt | er
    · rcases h3 : e.home with _ | hv
      · have hrm : (runMain e).1 = [] := by simp [runMain, h1, h2, h3]
        rw [hrm] at hmem
        exact absurd hmem (List.not_mem_nil _)
      · rcases h4 : Date.year dt with _ | y
        · have hrm : (runMain e).1 = [] := by simp [runMain, h1, h2, h3, h4]
          rw [hrm] at hmem
          exact absurd hmem (List.not_mem_nil _)
        · rcases h5 : Date.month dt with _ | mo
          · have hrm : (runMain e).1 = [] := by
              simp [runMain, h1, h2, h3, h4, h5]
            rw [hrm] at hmem
            exact absurd hmem (List.not_mem_nil _)
          · rcases h6 : Date.day dt with _ | dy
            · have hrm : (runMain e).1 = [] := by
                simp [runMain, h1, h2, h3, h4, h5, h6]
              rw [hrm] at hmem
              exact absurd hmem (List.not_mem_nil _)
            · rcases h7 : fileName f with _ | fn
              · have hrm : (runMain e).1 = [] := by
                  simp [runMain, h1, h2, h3, h4, h5, h6, h7]
                rw [hrm] at hmem
                exact absurd hmem (List.not_mem_nil _)
              · rcases h8 : parentPath (destPath hv y mo dy fn) with _ | dd
                · have hrm : (runMain e).1 = [] := by
                    simp [runMain, h1, h2, h3, h4, h5, h6, h7, h8]
                  rw [hrm] at hmem
                  exact absurd hmem (List.not_mem_nil _)
                · cases h9 : e.mkdirOk with
                  | false =>
                    have hrm : (runMain e).1 = [Effect.createDirAll dd] := by
                      simp [runMain, h1, h2, h3, h4, h5, h6, h7, h8, h9]
                    rw [hrm] at hmem
                    rw [List.mem_singleton] at hmem
                    exact Effect.noConfusion hmem
                  | true =>
                    have hrm : (runMain e).1 = [Effect.createDirAll dd,
                        Effect.renameFile f (destPath hv y mo dy fn)] := by
                      simp [runMain, h1, h2, h3, h4, h5, h6, h7, h8, h9]
                    rw [hrm] at hmem
                    rw [List.mem_cons] at hmem
                    rcases hmem with hbad | hmem
                    · exact Effect.noConfusion hbad
                    · rw [List.mem_singleton] at hmem
                      obtain ⟨hs, ht⟩ := Effect.renameFile.inj hmem
                      subst hs
                      subst ht
                      exact ⟨⟨dd, hrm⟩, rfl, ⟨dt, rfl⟩, ⟨hv, rfl⟩⟩
    · have hrm : (runMain e).1 = [] := by simp [runMain, h1, h2]
      rw [hrm] at hmem
      exact absurd hmem (List.not_mem_nil _)

/-- C6: in every run of `main`, the rename is invoked only as the last
effect, immediately after the directory creation, and only when header
scanning and date parsing (`get_date_from_file`), the `HOME` lookup, and
`create_dir_all` have all succeeded; and when the header scan fails with a
format error (`FileSeekError`), no directory is created and no rename is
invoked. -/
theorem c6_rename_gated (e : Env) :
    (∀ s t, Effect.renameFile s t ∈ (runMain e).1 →
      (∃ dd, (runMain e).1 = [Effect.createDirAll dd, Effect.renameFile s t]) ∧
      e.mkdirOk = true ∧
      (∃ d, get_date_from_file e.file = .ok d) ∧
      (∃ h, e.home = some h)) ∧
    (∀ exp found, get_date_from_file e.file = .err (.FileSeekError exp found) →
      (runMain e).1 = []) :=
  ⟨fun s t hmem => runMain_rename_mem e s t hmem,
   fun _ _ h => runMain_err_no_effects e _ h⟩

/-- A well-formed 1024-byte demonstration header whose date field holds
the bytes of `"2020:02:01"`. -/
def demoHeader : List Nat :=
  [0x49, 0x49, 0x2a, 0x25, 0x48] ++ pattern8 ++ List.replicate 7 0 ++
    [0x32, 0x30, 0x32, 0x30, 0x3a, 0x30, 0x32, 0x3a, 0x30, 0x31] ++
    List.replicate 994 0

/-- A demonstration environment for the happy path of `main`. -/
def demoEnv : Env :=
  { argv := [String.toList "photosort", String.toList "in.jpg"],
    home := some (String.toList "/h"),
    file := some demoHeader,
    mkdirOk := true,
    renameOk := true }

/-- The demonstration environment with `HOME` absent. -/
def demoEnvNoHome : Env :=
  { argv := [String.toList "photosort", String.toList "in.jpg"],
    home := none,
    file := some demoHeader,
    mkdirOk := true,
    renameOk := true }

/-- An environment whose argument vector has no first positional argument
(only the program name) but which is otherwise fully usable. -/
def demoEnvNoArg : Env :=
  { argv := [String.toList "photosort"],
    home := some (String.toList "/h"),
    file := some (List.replicate 1024 0),
    mkdirOk := true,
    renameOk := true }

/-- An environment with an empty argument vector. -/
def demoEnvEmpty : Env :=
  { argv := [], home := none, file := none, mkdirOk := false, renameOk := false }

/-- Witness for C6: the happy path performs exactly the directory creation
followed by the rename, and a run whose header scan fails with a
`FileSeekError` performs no effect. -/
theorem c6_rename_gated_witness :
    ((∃ dd, (runMain demoEnv).1 = [Effect.createDirAll dd,
        Effect.renameFile (String.toList "in.jpg")
          (String.toList "/h/annex/photos/2020/02/01/in.jpg")]) ∧
      demoEnv.mkdirOk = true ∧
      (∃ d, get_date_from_file demoEnv.file = .ok d) ∧
      (∃ h, demoEnv.home = some h)) ∧
    (runMain { demoEnv with file := some (List.replicate 1024 0) }).1 = [] :=
  ⟨(c6_rename_gated demoEnv).1 (String.toList "in.jpg")
      (String.toList "/h/annex/photos/2020/02/01/in.jpg") (by decide),
   (c6_rename_gated { demoEnv with file := some (List.replicate 1024 0) }).2
      [0x49] [] (by decide)⟩

/-- C5 as stated is false on three concrete inputs: a parsed year that
starts with `/` makes `format!`'s `new_path` absolute, so `Path::join`
discards the `<home>/annex/photos` prefix entirely; an empty `HOME` yields
a relative path, not `/annex/...`; and a `HOME` ending in `/` does not
produce the literal `<home>/annex/...` string.  (`"/a:b:c"` really parses
to a `Date` with year `"/a"`, as the first conjunct shows.) -/
theorem c5_counterexample :
    (dateTryFrom (String.toList "/a:b:c") = .ok ⟨String.toList "/a:b:c"⟩ ∧
     (Date.mk (String.toList "/a:b:c")).year = some (String.toList "/a") ∧
     destPath (String.toList "/home/user") (String.toList "/a") (String.toList "b")
       (String.toList "c") (String.toList "n.jpg") = String.toList "/a/b/c/n.jpg" ∧
     String.toList "/a/b/c/n.jpg"
       ≠ String.toList "/home/user/annex/photos//a/b/c/n.jpg") ∧
    (destPath [] (String.toList "2020") (String.toList "02") (String.toList "01")
       (String.toList "n.jpg") = String.toList "annex/photos/2020/02/01/n.jpg" ∧
     String.toList "annex/photos/2020/02/01/n.jpg"
       ≠ String.toList "/annex/photos/2020/02/01/n.jpg") ∧
    (destPath (String.toList "/root/") (String.toList "2020") (String.toList "02")
       (String.toList "01") (String.toList "n.jpg")
       = String.toList "/root/annex/photos/2020/02/01/n.jpg" ∧
     String.toList "/root/annex/photos/2020/02/01/n.jpg"
       ≠ String.toList "/root//annex/photos/2020/02/01/n.jpg") := by
  refine ⟨⟨?_, ?_, ?_, ?_⟩, ⟨?_, ?_⟩, ⟨?_, ?_⟩⟩ <;> decide

/-- C5 amended: when `HOME` is nonempty and does not end in `/`, and the
parsed year is nonempty and does not start with `/`, the destination path
computed by `main` is exactly `<home>/annex/photos/Y/M/D/N`; and when
`HOME` is absent, `main` fails without performing any effect. -/
theorem c5_amended_dest_path :
    (∀ home y m d n, home ≠ [] → home.getLast? ≠ some '/' →
      y ≠ [] → y.head? ≠ some '/' →
      destPath home y m d n
        = home ++ '/' :: (annexPhotos ++ '/' ::
            (y ++ '/' :: (m ++ '/' :: (d ++ '/' :: n))))) ∧
    (∀ e : Env, e.home = none →
      (runMain e).1 = [] ∧ (runMain e).2 ≠ MainResult.ok) := by
  refine ⟨?_, fun e he => runMain_no_home e he⟩
  intro home y m d n h1 h2 h3 h4
  have hinner : pathJoin home annexPhotos = home ++ '/' :: annexPhotos := by
    unfold pathJoin
    rw [if_neg (by decide), if_neg h1, if_neg h2]
  have hbhead : (y ++ '/' :: (m ++ '/' :: (d ++ '/' :: n))).head? ≠ some '/' := by
    cases y with
    | nil => exact absurd rfl h3
    | cons c cs => simpa using h4
  have hlast : (home ++ '/' :: annexPhotos).getLast? = some 's' := by
    rw [List.getLast?_append_cons]
    decide
  have houter : pathJoin (home ++ '/' :: annexPhotos)
      (y ++ '/' :: (m ++ '/' :: (d ++ '/' :: n)))
      = (home ++ '/' :: annexPhotos) ++ '/' ::
          (y ++ '/' :: (m ++ '/' :: (d ++ '/' :: n))) := by
    unfold pathJoin
    rw [if_neg hbhead, if_neg (by simp), if_neg (by rw [hlast]; decide)]
  unfold destPath
  rw [hinner, houter]
  simp

/-- Witness for C5 (amended): the path formula at concrete values, and the
missing-`HOME` failure at a concrete environment. -/
theorem c5_amended_dest_path_witness :
    destPath (String.toList "/home/user") (String.toList "2020")
      (String.toList "02") (String.toList "01") (String.toList "in.jpg")
      = String.toList "/home/user" ++ '/' :: (annexPhotos ++ '/' ::
          (String.toList "2020" ++ '/' :: (String.toList "02" ++ '/' ::
            (String.toList "01" ++ '/' :: String.toList "in.jpg")))) ∧
    ((runMain demoEnvNoHome).1 = [] ∧
      (runMain demoEnvNoHome).2 ≠ MainResult.ok) :=
  ⟨c5_amended_dest_path.1 (String.toList "/home/user") (String.toList "2020")
      (String.toList "02") (String.toList "01") (String.toList "in.jpg")
      (by decide) (by decide) (by decide) (by decide),
   c5_amended_dest_path.2 demoEnvNoHome rfl⟩

/-- C8 as stated is false: with no first positional argument, `main` does
not report a usage error — the `unwrap` on `std::env::args().nth(1)`
(src/main.rs line 183) panics.  The model distinguishes a panic from an
error return; the run performs no effect. -/
theorem c8_counterexample :
    runMain demoEnvNoArg = ([], MainResult.panicked) ∧
    MainResult.panicked ≠ MainResult.errored ∧
    MainResult.panicked ≠ MainResult.ok :=
  ⟨by decide, by decide, by decide⟩

/-- C8 amended: whenever the first positional argument is missing, `main`
panics on the argv `unwrap` and performs no further processing (no effect
is performed). -/
theorem c8_amended_missing_arg (e : Env) (h : e.argv[1]? = none) :
    runMain e = ([], MainResult.panicked) := by
  simp [runMain, h]

/-- Witness for C8 (amended) at an empty argument vector. -/
theorem c8_amended_missing_arg_witness :
    runMain demoEnvEmpty = ([], MainResult.panicked) :=
  c8_amended_missing_arg demoEnvEmpty rfl

/-- C10: for every file shorter than 1024 bytes, `get_date_from_file`
fails with the io error of `read_exact` (`FileError`), regardless of the
file's content. -/
theorem c10_short_file_io_error (bytes : List Nat) (h : bytes.length < 1024) :
    get_date_from_file (some bytes) = .err .FileError := by
  simp only [get_date_from_file]
  rw [if_pos h]

/-- Witness for C10 at a 30-byte file that contains a complete well-formed
marker sequence and date field: the scan alone would succeed on these
bytes, yet `get_date_from_file` still fails with `FileError`. -/
theorem c10_short_file_io_error_witness :
    get_date_from_file (some ([0x49, 0x49, 0x2a, 0x25, 0x48] ++ pattern8 ++
        List.replicate 7 0 ++
        [0x32, 0x30, 0x32, 0x30, 0x3a, 0x30, 0x32, 0x3a, 0x30, 0x31]))
      = .err .FileError ∧
    scanDate ([0x49, 0x49, 0x2a, 0x25, 0x48] ++ pattern8 ++
        List.replicate 7 0 ++
        [0x32, 0x30, 0x32, 0x30, 0x3a, 0x30, 0x32, 0x3a, 0x30, 0x31])
      = .ok [0x32, 0x30, 0x32, 0x30, 0x3a, 0x30, 0x32, 0x3a, 0x30, 0x31] :=
  ⟨c10_short_file_io_error _ (by decide), by decide⟩

end Photosort
